import Mathlib

/-!
Verification of the microarchitecture registry and resolution engine
(`llnl.util.cpu`): the static feature/ancestry database, the partial-order
comparison between microarchitectures, host detection, and compiler-flag
lookup with ancestor fallback.  The implementation module and its static
database are modelled from the specification; the repository's unit tests
fix the concrete expected values.
-/

namespace Cpu

deriving instance DecidableEq for Except

/-- Split a character list at every occurrence of the separator. -/
def splitOnChar (c : Char) : List Char → List Char → List (List Char)
  | [], acc => [acc.reverse]
  | x :: xs, acc =>
    if x == c then acc.reverse :: splitOnChar c xs []
    else splitOnChar c xs (x :: acc)

/-- True when the character is ASCII whitespace. -/
def isSpaceChar (c : Char) : Bool :=
  c == ' ' || c == '\t' || c == '\n' || c == '\r'

/-- Strip leading and trailing whitespace from a character list. -/
def trimChars (l : List Char) : List Char :=
  ((l.dropWhile isSpaceChar).reverse.dropWhile isSpaceChar).reverse

/-- Interpret a nonempty all-digit character list as a decimal number. -/
def decDigits? (l : List Char) : Option Nat :=
  if !l.isEmpty && l.all (fun c => c.isDigit) then
    some (l.foldl (fun acc c => acc * 10 + (c.toNat - 48)) 0)
  else none

/-- Pairs of ASCII upper-case letters with their lower-case forms. -/
def lowerTable : List (Char × Char) :=
  ("ABCDEFGHIJKLMNOPQRSTUVWXYZ").data.zip
    (("abcdefghijklmnopqrstuvwxyz").data)

/-- Lower-case a single character through the ASCII table. -/
def lowerChar (c : Char) : Char := (lowerTable.lookup c).getD c

/-- Lower-case a string. -/
def lowerStr (s : String) : String := String.mk (s.data.map lowerChar)

/-- True when the first list is an initial segment of the second. -/
def startsWith : List Char → List Char → Bool
  | [], _ => true
  | _ :: _, [] => false
  | p :: ps, x :: xs => p == x && startsWith ps xs

/-- Fuelled replacement of every occurrence of a nonempty pattern. -/
def replaceFuel : Nat → List Char → List Char → List Char → List Char
  | 0, _, _, s => s
  | _ + 1, _, _, [] => []
  | n + 1, pat, rep, c :: rest =>
    if startsWith pat (c :: rest) && decide (0 < pat.length) then
      rep ++ replaceFuel n pat rep (List.drop (pat.length - 1) rest)
    else c :: replaceFuel n pat rep rest

/-- Replace every occurrence of a substring in a string. -/
def replaceStr (s pat rep : String) : String :=
  String.mk (replaceFuel s.data.length pat.data rep.data s.data)

/-- Parse a version from its character list: components split on dots,
each read as a number (0 when not numeric). -/
def parseVerChars (l : List Char) : List Nat :=
  (splitOnChar ('.') l []).map (fun t => (decDigits? t).getD 0)

/-- Modelled from the spec: a version is compared semantically
(major.minor.patch ordering); we represent it as its list of numeric
components, ordered lexicographically. -/
def parseVersion (s : String) : List Nat :=
  parseVerChars s.data

/-- Lexicographic strict order on version component lists; a shorter
version is smaller than any of its proper extensions. -/
def verLt : List Nat → List Nat → Bool
  | [], [] => false
  | [], _ :: _ => true
  | _ :: _, [] => false
  | a :: as, b :: bs =>
    if a < b then true
    else if b < a then false
    else verLt as bs

/-- Modelled from the spec: a version range is half-open — it contains
`v` when `lo ≤ v` and (when an upper bound is present) `v < hi`. -/
structure VRange where
  lo : List Nat
  hi : Option (List Nat)
deriving DecidableEq

/-- Membership of a version in a half-open range. -/
def VRange.containsVer (r : VRange) (v : List Nat) : Bool :=
  !(verLt v r.lo) &&
    (match r.hi with
     | none => true
     | some h => verLt v h)

/-- Parse a textual version-range of the shape `lo:` or `lo:hi`. -/
def parseRange (s : String) : Option VRange :=
  match splitOnChar (':') s.data [] with
  | [lo, hi] =>
    some { lo := parseVerChars lo,
           hi := if hi.isEmpty then none else some (parseVerChars hi) }
  | _ => none

/-- Modelled from the spec: one raw entry of a per-compiler flag table in
the database file — a version-range string, an optional flag-name override,
and a flag template with a substitution placeholder for the name. -/
structure FlagEntry where
  versions : String
  name : Option String
  flags : String
deriving DecidableEq

/-- Modelled from the spec: one raw record of the database file: vendor,
optional generation, declared parent names, raw feature strings and the
per-compiler flag tables.  The architecture family is implicit — it is
derived from the ancestor relation after loading. -/
structure RawRecord where
  vendor : String
  generation : Option Nat
  parents : List String
  features : List String
  compilers : List (String × List FlagEntry)
deriving DecidableEq

/-- A resolved flag-table entry: parsed range, optional name override and
the flag template. -/
structure CompEntry where
  range : VRange
  name : Option String
  flags : String
deriving DecidableEq

/-- Modelled from the spec: the Microarchitecture value type — identity,
vendor, optional generation, declared parent names, feature set and
per-compiler flag tables. -/
structure MicroArchitecture where
  name : String
  vendor : String
  generation : Option Nat
  parents : List String
  features : List String
  compiler_flags : List (String × List CompEntry)
deriving DecidableEq

/-- Build a registry member from a raw database record, parsing every
version-range string (an unparsable string yields an empty range). -/
def mkMicro (n : String) (r : RawRecord) : MicroArchitecture :=
  { name := n
    vendor := r.vendor
    generation := r.generation
    parents := r.parents
    features := r.features
    compiler_flags := r.compilers.map (fun ce =>
      (ce.1, ce.2.map (fun e =>
        { range := (parseRange e.versions).getD { lo := [], hi := some [] }
          name := e.name
          flags := e.flags }))) }

/-- Shared gcc table entry used by most members: versions 4.9 and newer,
flags instantiated with the member's own name. -/
def gccNewer : FlagEntry :=
  { versions := "4.9:", name := none, flags := "-march={name} -mtune={name}" }

/-- Modelled from the spec: the static microarchitecture database bundled
with the module (the data behind the registry, `_targets_json.data`).  The
file itself is not part of the visible sources; this rendition follows the
spec's data model and the concrete values fixed by the unit tests:
ancestry chains per family, vendors, cumulative feature sets, and gcc
tables such that 4.8.5 is only covered by the dedicated legacy entries. -/
def targetsData : List (String × RawRecord) := [
  ("x86",
   { vendor := "generic", generation := none, parents := [],
     features := [], compilers := [] }),
  ("pentium2",
   { vendor := "GenuineIntel", generation := none, parents := ["x86"],
     features := ["mmx"], compilers := [] }),
  ("x86_64",
   { vendor := "generic", generation := none, parents := [],
     features := [],
     compilers := [("gcc",
       [{ versions := "4.9:", name := some ("x86-64"),
          flags := "-march={name} -mtune={name}" }])] }),
  ("nocona",
   { vendor := "GenuineIntel", generation := none, parents := ["x86_64"],
     features := ["mmx", "sse", "sse2"],
     compilers := [("gcc", [gccNewer])] }),
  ("core2",
   { vendor := "GenuineIntel", generation := none, parents := ["nocona"],
     features := ["mmx", "sse", "sse2", "ssse3"],
     compilers := [("gcc",
       [{ versions := "4.6:4.9", name := some ("corei7"),
          flags := "-march={name} -mtune={name}" }, gccNewer])] }),
  ("nehalem",
   { vendor := "GenuineIntel", generation := none, parents := ["core2"],
     features := ["mmx", "sse", "sse2", "ssse3", "sse4.1", "sse4.2",
                  "popcnt"],
     compilers := [("gcc", [gccNewer])] }),
  ("westmere",
   { vendor := "GenuineIntel", generation := none, parents := ["nehalem"],
     features := ["mmx", "sse", "sse2", "ssse3", "sse4.1", "sse4.2",
                  "popcnt", "aes", "pclmulqdq"],
     compilers := [("gcc", [gccNewer])] }),
  ("sandybridge",
   { vendor := "GenuineIntel", generation := none, parents := ["westmere"],
     features := ["mmx", "sse", "sse2", "ssse3", "sse4.1", "sse4.2",
                  "popcnt", "aes", "pclmulqdq", "avx"],
     compilers := [("gcc",
       [{ versions := "4.6:4.9", name := some ("corei7-avx"),
          flags := "-march={name} -mtune={name}" }, gccNewer])] }),
  ("ivybridge",
   { vendor := "GenuineIntel", generation := none,
     parents := ["sandybridge"],
     features := ["mmx", "sse", "sse2", "ssse3", "sse4.1", "sse4.2",
                  "popcnt", "aes", "pclmulqdq", "avx", "rdrand", "f16c"],
     compilers := [("gcc", [gccNewer])] }),
  ("haswell",
   { vendor := "GenuineIntel", generation := none, parents := ["ivybridge"],
     features := ["mmx", "sse", "sse2", "ssse3", "sse4.1", "sse4.2",
                  "popcnt", "aes", "pclmulqdq", "avx", "rdrand", "f16c",
                  "avx2", "bmi1", "bmi2", "fma", "movbe"],
     compilers := [("gcc", [gccNewer])] }),
  ("broadwell",
   { vendor := "GenuineIntel", generation := none, parents := ["haswell"],
     features := ["mmx", "sse", "sse2", "ssse3", "sse4.1", "sse4.2",
                  "popcnt", "aes", "pclmulqdq", "avx", "rdrand", "f16c",
                  "avx2", "bmi1", "bmi2", "fma", "movbe", "rdseed", "adx"],
     compilers := [("gcc", [gccNewer])] }),
  ("skylake",
   { vendor := "GenuineIntel", generation := none, parents := ["broadwell"],
     features := ["mmx", "sse", "sse2", "ssse3", "sse4.1", "sse4.2",
                  "popcnt", "aes", "pclmulqdq", "avx", "rdrand", "f16c",
                  "avx2", "bmi1", "bmi2", "fma", "movbe", "rdseed", "adx",
                  "clflushopt", "xsavec"],
     compilers := [("gcc", [gccNewer])] }),
  ("icelake",
   { vendor := "GenuineIntel", generation := none, parents := ["skylake"],
     features := ["mmx", "sse", "sse2", "ssse3", "sse4.1", "sse4.2",
                  "popcnt", "aes", "pclmulqdq", "avx", "rdrand", "f16c",
                  "avx2", "bmi1", "bmi2", "fma", "movbe", "rdseed", "adx",
                  "clflushopt", "xsavec", "avx512f", "avx512vl", "sha"],
     compilers := [("gcc",
       [{ versions := "8.0:", name := none,
          flags := "-march={name} -mtune={name}" }])] }),
  ("bulldozer",
   { vendor := "AuthenticAMD", generation := none, parents := ["x86_64"],
     features := ["mmx", "sse", "sse2", "ssse3", "sse4.1", "sse4.2",
                  "avx"],
     compilers := [("gcc", [gccNewer])] }),
  ("piledriver",
   { vendor := "AuthenticAMD", generation := none, parents := ["bulldozer"],
     features := ["mmx", "sse", "sse2", "ssse3", "sse4.1", "sse4.2",
                  "avx", "bmi1", "fma"],
     compilers := [("gcc", [gccNewer])] }),
  ("excavator",
   { vendor := "AuthenticAMD", generation := none,
     parents := ["piledriver"],
     features := ["mmx", "sse", "sse2", "ssse3", "sse4.1", "sse4.2",
                  "avx", "bmi1", "fma", "avx2", "bmi2", "movbe"],
     compilers := [("gcc", [gccNewer])] }),
  ("zen",
   { vendor := "AuthenticAMD", generation := none, parents := ["excavator"],
     features := ["mmx", "sse", "sse2", "ssse3", "sse4.1", "sse4.2",
                  "avx", "bmi1", "fma", "avx2", "bmi2", "movbe",
                  "clzero"],
     compilers := [("gcc",
       [{ versions := "6.0:", name := some ("znver1"),
          flags := "-march={name} -mtune={name}" }])] }),
  ("zen2",
   { vendor := "AuthenticAMD", generation := none, parents := ["zen"],
     features := ["mmx", "sse", "sse2", "ssse3", "sse4.1", "sse4.2",
                  "avx", "bmi1", "fma", "avx2", "bmi2", "movbe",
                  "clzero", "clwb"],
     compilers := [("gcc",
       [{ versions := "9.0:", name := some ("znver2"),
          flags := "-march={name} -mtune={name}" }])] }),
  ("ppc64le",
   { vendor := "generic", generation := none, parents := [],
     features := [], compilers := [] }),
  ("power8",
   { vendor := "IBM", generation := some 8, parents := ["ppc64le"],
     features := ["vsx"],
     compilers := [("gcc",
       [{ versions := "4.9:", name := some ("power8"),
          flags := "-mcpu={name} -mtune={name}" }])] })]

/-- Modelled from the spec: schema validation of the database — every
record must have a nonempty name and vendor, nonempty parent and feature
strings, and every compiler entry must carry a parsable version-range
string and a nonempty flag template. -/
def schemaCheck (data : List (String × RawRecord)) : Bool :=
  data.all (fun p =>
    !p.1.data.isEmpty &&
    !p.2.vendor.data.isEmpty &&
    p.2.parents.all (fun q => !q.data.isEmpty) &&
    p.2.features.all (fun f => !f.data.isEmpty) &&
    p.2.compilers.all (fun c =>
      !c.1.data.isEmpty &&
      c.2.all (fun e =>
        (parseRange e.versions).isSome && !e.flags.data.isEmpty)))

/-- The frozen registry, built once from the static database. -/
def targets : List MicroArchitecture :=
  targetsData.map (fun p => mkMicro p.1 p.2)

/-- Look up a registry member by name. -/
def findTarget (n : String) : Option MicroArchitecture :=
  targets.find? (fun m => m.name == n)

/-- Keep the first occurrence of each name, preserving order (the
visited-set guard of the ancestor traversal). -/
def dedupByName (l : List MicroArchitecture) : List MicroArchitecture :=
  l.foldl (fun acc m =>
    if acc.any (fun x => x.name == m.name) then acc else acc ++ [m]) []

/-- Resolve a member's declared parent names into registry members. -/
def resolveParents (m : MicroArchitecture) : List MicroArchitecture :=
  m.parents.filterMap findTarget

/-- Fuelled transitive-ancestor computation: the resolved parents first
(declared order), then their ancestors, deduplicated by name. -/
def ancestorsAux : Nat → MicroArchitecture → List MicroArchitecture
  | 0, _ => []
  | n + 1, m =>
    let ps := resolveParents m
    dedupByName (ps ++ ps.flatMap (fun p => ancestorsAux n p))

/-- The ordered ancestor list of a member: nearest (first-declared)
ancestors first, the registry size bounding the walk. -/
def MicroArchitecture.ancestors (m : MicroArchitecture) :
    List MicroArchitecture :=
  ancestorsAux targets.length m

/-- Modelled from the spec: the architecture family of a member is derived
as the root of its ancestor DAG (itself when it has no parents). -/
def familyName (m : MicroArchitecture) : String :=
  match (m :: m.ancestors).filter (fun a => a.parents.isEmpty) with
  | [] => m.name
  | r :: _ => r.name

/-- Modelled from the spec: a generic placeholder has generic vendor,
empty features and ancestors, and its family equals its raw name. -/
def generic_microarchitecture (n : String) : MicroArchitecture :=
  { name := n, vendor := "generic", generation := none, parents := [],
    features := [], compiler_flags := [] }

/-- Modelled from the spec: the errors the query layer can signal. -/
inductive CpuError where
  | incomparableArchitectures
  | typeMismatch
  | unsupportedMicroarchitecture (target : String) (compiler : String)
      (version : String)
deriving DecidableEq

/-- Equality on members is decided by name alone. -/
def eqB (a b : MicroArchitecture) : Bool := a.name == b.name

/-- Inequality is the boolean negation of equality; it never errors. -/
def neB (a b : MicroArchitecture) : Bool := !(eqB a b)

/-- Strict order: `a` is a strict ancestor of `b`, i.e. `a` occurs in the
transitive-ancestor list of `b`. -/
def ltB (a b : MicroArchitecture) : Bool :=
  b.ancestors.any (fun x => x.name == a.name)

/-- Ordering comparisons across architecture families signal
`incomparableArchitectures`; within one family they report `r`. -/
def cmpGuard (a b : MicroArchitecture) (r : Bool) : Except CpuError Bool :=
  if familyName a == familyName b then .ok r
  else .error .incomparableArchitectures

/-- The `<` operator between members. -/
def ltE (a b : MicroArchitecture) : Except CpuError Bool :=
  cmpGuard a b (ltB a b)

/-- The `<=` operator between members: equal or strictly less. -/
def leE (a b : MicroArchitecture) : Except CpuError Bool :=
  cmpGuard a b (eqB a b || ltB a b)

/-- The `>` operator between members: the mirror of `<`. -/
def gtE (a b : MicroArchitecture) : Except CpuError Bool :=
  cmpGuard a b (ltB b a)

/-- The `>=` operator between members: the mirror of `<=`. -/
def geE (a b : MicroArchitecture) : Except CpuError Bool :=
  cmpGuard a b (eqB a b || ltB b a)

/-- Modelled from the spec: a dynamically-typed right operand of an
ordering comparison — either a microarchitecture or some other value
(for instance a string). -/
inductive PyOperand where
  | march (m : MicroArchitecture)
  | pystr (s : String)
deriving DecidableEq

/-- Ordering comparison against a value that is not a microarchitecture
fails with `typeMismatch`. -/
def ltOperand (a : MicroArchitecture) (v : PyOperand) :
    Except CpuError Bool :=
  match v with
  | .march b => ltE a b
  | .pystr _ => .error .typeMismatch

/-- Modelled from the spec: the static feature-alias table — a
human-facing name matches when any of its underlying raw names is
present. -/
def feature_aliases : List (String × List String) :=
  [("sse3", ["ssse3"]),
   ("avx512", ["avx512f", "avx512vl", "avx512bw", "avx512dq", "avx512cd"]),
   ("altivec", ["vsx"])]

/-- Feature query: true if the query is directly in the feature set, or
is an alias whose underlying raw names intersect the feature set. -/
def MicroArchitecture.has_feature (m : MicroArchitecture) (q : String) :
    Bool :=
  m.features.contains q ||
    (match feature_aliases.lookup q with
     | some raws => raws.any (fun r => m.features.contains r)
     | none => false)

/-- True when the compiler identifier occurs in some flag table of the
registry. -/
def compilerKnown (c : String) : Bool :=
  targets.any (fun m => m.compiler_flags.any (fun p => p.1 == c))

/-- Scan one member's table for the given compiler: the first entry whose
range contains the version, its template instantiated with the entry's
flag name (defaulting to the member's own name). -/
def entryFor (m : MicroArchitecture) (c : String) (v : List Nat) :
    Option String :=
  match m.compiler_flags.lookup c with
  | none => none
  | some entries =>
    (entries.find? (fun e => e.range.containsVer v)).map
      (fun e => replaceStr e.flags ("{name}") (e.name.getD m.name))

/-- Modelled from the spec: flag resolution — an unknown compiler
degrades to the empty string; otherwise the member itself and then its
ancestors in declared order are scanned, and an exhausted walk fails with
`unsupportedMicroarchitecture` naming the original entity and the
compiler/version pair. -/
def MicroArchitecture.optimization_flags (m : MicroArchitecture)
    (c : String) (ver : String) : Except CpuError String :=
  if compilerKnown c then
    match (m :: m.ancestors).findSome?
        (fun t => entryFor t c (parseVersion ver)) with
    | some fl => .ok fl
    | none => .error (.unsupportedMicroarchitecture m.name c ver)
  else .ok ("")

/-- Modelled from the spec: the raw vendor/feature source of the host
probe — a line-oriented text source on Linux, a key-query table on
Darwin. -/
inductive RawSource where
  | procCpuinfo (lines : List String)
  | sysctl (table : List (String × String))

/-- Modelled from the spec: the injected host probe — reported system,
reported machine, and the platform-dependent raw source. -/
structure HostProbe where
  system : String
  machine : String
  source : RawSource

/-- Parse line-oriented `key: value` text into a key-value table. -/
def parseKV (lines : List String) : List (String × String) :=
  lines.filterMap (fun l =>
    match splitOnChar (':') l.data [] with
    | [k, v] => some (String.mk (trimChars k), String.mk (trimChars v))
    | _ => none)

/-- Split a raw value into whitespace-separated words. -/
def splitWords (s : String) : List String :=
  ((splitOnChar (' ') s.data []).filter
    (fun w => !w.isEmpty)).map String.mk

/-- Extract the vendor string and raw feature set from the probe,
dispatching on the reported system; an unsupported platform yields
none. -/
def probeInfo (p : HostProbe) : Option (String × List String) :=
  match p.system, p.source with
  | "Linux", .procCpuinfo lines =>
    let kv := parseKV lines
    some ((kv.lookup ("vendor_id")).getD (""),
          splitWords ((kv.lookup ("flags")).getD ("")))
  | "Darwin", .sysctl table =>
    let feats :=
      splitWords ((table.lookup ("machdep.cpu.features")).getD ("")) ++
      splitWords ((table.lookup ("machdep.cpu.leaf7_features")).getD (""))
    some ((table.lookup ("machdep.cpu.vendor")).getD (""),
          feats.map (fun f => lowerStr f))
  | _, _ => none

/-- Tie-break between maximal candidates: prefer the higher generation,
then the larger feature count. -/
def scoreLt (a b : MicroArchitecture) : Bool :=
  if a.generation.getD 0 < b.generation.getD 0 then true
  else if b.generation.getD 0 < a.generation.getD 0 then false
  else decide (a.features.length < b.features.length)

/-- Pick the best-scored member of a candidate list. -/
def pickBest : List MicroArchitecture → Option MicroArchitecture
  | [] => none
  | m :: ms =>
    some (ms.foldl (fun acc n => if scoreLt acc n then n else acc) m)

/-- Modelled from the spec: host detection — the reported machine fixes
the family search space, candidates are filtered by vendor and by feature
subset, a maximal candidate under the partial order is selected with the
generation/feature-count tie-break, and any failure degrades to the
generic placeholder. -/
def detect_host (p : HostProbe) : MicroArchitecture :=
  match probeInfo p with
  | none => generic_microarchitecture p.machine
  | some (vendor, feats) =>
    let cands := targets.filter (fun m =>
      familyName m == p.machine &&
      (m.vendor == vendor || m.vendor == ("generic")) &&
      m.features.all (fun f => feats.contains f))
    let maximal := cands.filter (fun m => !(cands.any (fun n => ltB m n)))
    (pickBest maximal).getD (generic_microarchitecture p.machine)

/-- The broadwell member of the registry. -/
def broadwellT : MicroArchitecture :=
  (findTarget ("broadwell")).getD (generic_microarchitecture ("broadwell"))

/-- The x86 member of the registry. -/
def x86T : MicroArchitecture :=
  (findTarget ("x86")).getD (generic_microarchitecture ("x86"))

/-- The x86_64 member of the registry. -/
def x86_64T : MicroArchitecture :=
  (findTarget ("x86_64")).getD (generic_microarchitecture ("x86_64"))

/-- The nehalem member of the registry. -/
def nehalemT : MicroArchitecture :=
  (findTarget ("nehalem")).getD (generic_microarchitecture ("nehalem"))

/-- The sandybridge member of the registry. -/
def sandybridgeT : MicroArchitecture :=
  (findTarget ("sandybridge")).getD
    (generic_microarchitecture ("sandybridge"))

/-- The skylake member of the registry. -/
def skylakeT : MicroArchitecture :=
  (findTarget ("skylake")).getD (generic_microarchitecture ("skylake"))

/-- The icelake member of the registry. -/
def icelakeT : MicroArchitecture :=
  (findTarget ("icelake")).getD (generic_microarchitecture ("icelake"))

/-- The piledriver member of the registry. -/
def piledriverT : MicroArchitecture :=
  (findTarget ("piledriver")).getD (generic_microarchitecture ("piledriver"))

/-- The excavator member of the registry. -/
def excavatorT : MicroArchitecture :=
  (findTarget ("excavator")).getD (generic_microarchitecture ("excavator"))

/-- The zen member of the registry. -/
def zenT : MicroArchitecture :=
  (findTarget ("zen")).getD (generic_microarchitecture ("zen"))

/-- The zen2 member of the registry. -/
def zen2T : MicroArchitecture :=
  (findTarget ("zen2")).getD (generic_microarchitecture ("zen2"))

/-- The power8 member of the registry. -/
def power8T : MicroArchitecture :=
  (findTarget ("power8")).getD (generic_microarchitecture ("power8"))

/-- Line-oriented fixture of a broadwell-class Linux host. -/
def linuxBroadwellProbe : HostProbe :=
  { system := "Linux", machine := "x86_64",
    source := .procCpuinfo [
      "processor : 0",
      "vendor_id : GenuineIntel",
      "model name : Intel Core Processor Broadwell",
      "flags : fpu vme de pse tsc msr mmx sse sse2 ssse3 sse4.1 sse4.2 popcnt aes pclmulqdq avx rdrand f16c avx2 bmi1 bmi2 fma movbe rdseed adx"] }

/-- Key-query fixture of a broadwell-class Darwin host. -/
def darwinBroadwellProbe : HostProbe :=
  { system := "Darwin", machine := "x86_64",
    source := .sysctl [
      ("machdep.cpu.vendor", "GenuineIntel"),
      ("machdep.cpu.features",
       "MMX SSE SSE2 SSSE3 SSE4.1 SSE4.2 POPCNT AES PCLMULQDQ AVX RDRAND F16C FMA MOVBE"),
      ("machdep.cpu.leaf7_features", "AVX2 BMI1 BMI2 RDSEED ADX")] }

/-- Modelled from the spec: one upward step of the ancestor relation —
`StepUp x y` holds when `y` is one of the resolved parents of `x`. -/
def StepUp (x y : MicroArchitecture) : Prop := y ∈ resolveParents x

/-- Modelled from the spec's words: `b` reaches `a` by following the
ancestor relation one or more steps (so `a` is a strict ancestor of
`b`). -/
abbrev ReachesUp : MicroArchitecture → MicroArchitecture → Prop :=
  Relation.TransGen StepUp

/-- Membership in the dedup fold implies membership in the accumulator or
in the traversed list. -/
theorem mem_of_mem_dedupFold :
    ∀ (l acc : List MicroArchitecture) (x : MicroArchitecture),
      x ∈ l.foldl (fun acc2 m =>
        if acc2.any (fun y => y.name == m.name) then acc2
        else acc2 ++ [m]) acc →
      x ∈ acc ∨ x ∈ l := by
  intro l
  induction l with
  | nil =>
    intro acc x h
    exact Or.inl h
  | cons m ms ih =>
    intro acc x h
    rw [List.foldl_cons] at h
    rcases ih _ x h with h3 | h3
    · by_cases hc : (acc.any (fun y => y.name == m.name)) = true
      · rw [if_pos hc] at h3
        exact Or.inl h3
      · rw [if_neg hc] at h3
        rcases List.mem_append.mp h3 with h4 | h4
        · exact Or.inl h4
        · simp at h4
          subst h4
          exact Or.inr (List.mem_cons_self _ _)
    · exact Or.inr (List.mem_cons_of_mem m h3)

/-- The deduplicated list is a sublist of the original, membership-wise. -/
theorem mem_of_mem_dedupByName {l : List MicroArchitecture}
    {x : MicroArchitecture} (h : x ∈ dedupByName l) : x ∈ l := by
  have h2 := mem_of_mem_dedupFold l [] x h
  simpa using h2

/-- A resolved parent is itself a registry member. -/
theorem mem_targets_of_resolve {m p : MicroArchitecture}
    (h : p ∈ resolveParents m) : p ∈ targets := by
  have h2 : p ∈ m.parents.filterMap findTarget := h
  rcases List.mem_filterMap.mp h2 with ⟨nm, _, hf⟩
  exact List.mem_of_find?_eq_some hf

/-- Soundness of the fuelled ancestor computation: everything it lists is
reachable upward from the member and lies in the registry. -/
theorem sound_ancestorsAux :
    ∀ (n : Nat) (m a : MicroArchitecture), a ∈ ancestorsAux n m →
      ReachesUp m a ∧ a ∈ targets := by
  intro n
  induction n with
  | zero =>
    intro m a h
    simp [ancestorsAux] at h
  | succ k ih =>
    intro m a h
    simp only [ancestorsAux] at h
    rcases List.mem_append.mp (mem_of_mem_dedupByName h) with h3 | h3
    · exact ⟨Relation.TransGen.single h3, mem_targets_of_resolve h3⟩
    · rcases List.mem_flatMap.mp h3 with ⟨p, hp, ha⟩
      rcases ih p a ha with ⟨r1, r2⟩
      exact ⟨Relation.TransGen.head hp r1, r2⟩

/-- Every resolved parent of a registry member appears in its computed
ancestor list. -/
theorem closure_parents :
    ∀ m, m ∈ targets → ∀ p, p ∈ resolveParents m → p ∈ m.ancestors := by
  decide

/-- The computed ancestor list is closed under taking resolved parents. -/
theorem closure_step :
    ∀ b, b ∈ targets → ∀ c, c ∈ b.ancestors → ∀ a, a ∈ resolveParents c →
      a ∈ b.ancestors := by
  decide

/-- Completeness: every member reachable upward from a registry member
appears in its computed ancestor list. -/
theorem complete_reach :
    ∀ b a, ReachesUp b a → b ∈ targets → a ∈ b.ancestors := by
  intro b a h hb
  induction h with
  | single h1 => exact closure_parents b hb _ h1
  | tail _ h2 ih => exact closure_step b hb _ ih _ h2

/-- Registry names are pairwise distinct. -/
theorem names_nodup : (targets.map (fun m => m.name)).Nodup := by
  decide

/-- Registry members are determined by their names. -/
theorem name_inj {a b : MicroArchitecture} (ha : a ∈ targets)
    (hb : b ∈ targets) (h : a.name = b.name) : a = b :=
  List.inj_on_of_nodup_map names_nodup ha hb h

/-- The computed strict order coincides with upward reachability on
registry members. -/
theorem ltB_iff {a b : MicroArchitecture} (ha : a ∈ targets)
    (hb : b ∈ targets) : ltB a b = true ↔ ReachesUp b a := by
  constructor
  · intro h
    rcases List.any_eq_true.mp h with ⟨x, hx, hnm⟩
    have hx2 : x ∈ ancestorsAux targets.length b := hx
    rcases sound_ancestorsAux targets.length b x hx2 with ⟨r1, r2⟩
    have hx3 : x = a := name_inj r2 ha (by simpa using hnm)
    exact hx3 ▸ r1
  · intro h
    have hm := complete_reach b a h hb
    exact List.any_eq_true.mpr ⟨a, hm, by simp⟩

/-- The guarded comparison returns ok true exactly when the families
agree and the raw comparison holds. -/
theorem cmpGuard_ok_iff {a b : MicroArchitecture} {r : Bool} :
    cmpGuard a b r = .ok true ↔
      (familyName a = familyName b ∧ r = true) := by
  unfold cmpGuard
  by_cases h : (familyName a == familyName b) = true
  · rw [if_pos h]
    simp only [beq_iff_eq] at h
    simp [h]
  · rw [if_neg h]
    simp only [beq_iff_eq] at h
    simp [h]

/-- C1: for nehalem with gcc at 4.8.5, no range of nehalem's own gcc table
covers the version; the resolver walks nehalem's ancestor list in declared
order, and the first ancestor entry whose range contains the version
yields the string "-march=corei7 -mtune=corei7", which
`optimization_flags` returns. -/
theorem c1_nehalem_ancestor_fallback :
    entryFor nehalemT ("gcc") (parseVersion ("4.8.5")) = none ∧
    nehalemT.ancestors.findSome?
        (fun a => entryFor a ("gcc") (parseVersion ("4.8.5"))) =
      some ("-march=corei7 -mtune=corei7") ∧
    nehalemT.optimization_flags ("gcc") ("4.8.5") =
      .ok ("-march=corei7 -mtune=corei7") :=
  ⟨by decide, by decide, by decide⟩

/-- C3: when the probe reports a machine name equal to broadwell's
architecture family and supplies broadwell-class raw vendor/feature data
(line-oriented on Linux, key-query on Darwin), host detection returns
exactly the broadwell registry member. -/
theorem c3_broadwell_detection :
    linuxBroadwellProbe.machine = familyName broadwellT ∧
    darwinBroadwellProbe.machine = familyName broadwellT ∧
    detect_host linuxBroadwellProbe = broadwellT ∧
    detect_host darwinBroadwellProbe = broadwellT ∧
    findTarget ("broadwell") = some broadwellT :=
  ⟨by decide, by decide, by decide, by decide, by decide⟩

/-- C4: for excavator with gcc at 4.8.5, flag resolution finds no usable
entry on the entity itself or on any of its ancestors, and fails with
`unsupportedMicroarchitecture` naming the original entity and the
compiler/version pair. -/
theorem c4_excavator_unsupported :
    compilerKnown ("gcc") = true ∧
    ((excavatorT :: excavatorT.ancestors).all
        (fun t => (entryFor t ("gcc") (parseVersion ("4.8.5"))).isNone))
      = true ∧
    excavatorT.optimization_flags ("gcc") ("4.8.5") =
      .error (.unsupportedMicroarchitecture ("excavator") ("gcc")
        ("4.8.5")) :=
  ⟨by decide, by decide, by decide⟩

/-- C10: the static microarchitecture database bundled with the module —
the data behind the registry — itself validates against the module's
schema, and the registry is built exactly from that data. -/
theorem c10_bundled_data_schema_valid :
    schemaCheck targetsData = true ∧
    targets = targetsData.map (fun p => mkMicro p.1 p.2) :=
  ⟨by decide, by decide⟩

/-- C2: for every pair of registry members belonging to different
architecture families, each ordering comparison fails with
`incomparableArchitectures`, while the equality tests do not fail and
return false and true respectively. -/
theorem c2_cross_family_comparisons :
    ∀ m, m ∈ targets → ∀ n, n ∈ targets →
      familyName m ≠ familyName n →
      ltE m n = .error .incomparableArchitectures ∧
      leE m n = .error .incomparableArchitectures ∧
      gtE m n = .error .incomparableArchitectures ∧
      geE m n = .error .incomparableArchitectures ∧
      eqB m n = false ∧ neB m n = true := by
  decide

/-- Witness for C2 at the pair (x86, skylake). -/
theorem c2_witness :
    x86T ∈ targets ∧ skylakeT ∈ targets ∧
    familyName x86T ≠ familyName skylakeT ∧
    (ltE x86T skylakeT = .error .incomparableArchitectures ∧
     leE x86T skylakeT = .error .incomparableArchitectures ∧
     gtE x86T skylakeT = .error .incomparableArchitectures ∧
     geE x86T skylakeT = .error .incomparableArchitectures ∧
     eqB x86T skylakeT = false ∧ neB x86T skylakeT = true) :=
  ⟨by decide, by decide, by decide,
   c2_cross_family_comparisons x86T (by decide) skylakeT (by decide)
     (by decide)⟩

/-- C5: when the requested compiler identifier is absent from every flag
table of the registry, `optimization_flags` returns the empty string for
every member and version and raises no error; in particular
sandybridge/unknown/4.8.5 yields the empty string. -/
theorem c5_unknown_compiler_empty :
    (∀ m, m ∈ targets → ∀ c ver, compilerKnown c = false →
      m.optimization_flags c ver = .ok ("")) ∧
    compilerKnown ("unknown") = false ∧
    sandybridgeT.optimization_flags ("unknown") ("4.8.5") = .ok ("") := by
  refine ⟨?_, by decide, by decide⟩
  intro m _ c ver h
  unfold MicroArchitecture.optimization_flags
  rw [h]
  simp

/-- Witness for C5 at sandybridge with the unknown compiler. -/
theorem c5_witness :
    sandybridgeT ∈ targets ∧ compilerKnown ("unknown") = false ∧
    sandybridgeT.optimization_flags ("unknown") ("4.8.5") = .ok ("") :=
  ⟨by decide, by decide,
   c5_unknown_compiler_empty.1 sandybridgeT (by decide) ("unknown")
     ("4.8.5") (by decide)⟩

/-- C7: equality on registry members is decided by name alone — every
member equals itself, and members with different names compare unequal. -/
theorem c7_equality_by_name :
    ∀ m, m ∈ targets → eqB m m = true ∧
      ∀ n, n ∈ targets → n.name ≠ m.name →
        eqB m n = false ∧ neB m n = true := by
  decide

/-- Witness for C7 at x86_64 and skylake. -/
theorem c7_witness :
    x86_64T ∈ targets ∧ skylakeT ∈ targets ∧
    skylakeT.name ≠ x86_64T.name ∧
    eqB x86_64T x86_64T = true ∧ eqB x86_64T skylakeT = false ∧
    neB x86_64T skylakeT = true :=
  ⟨by decide, by decide, by decide,
   (c7_equality_by_name x86_64T (by decide)).1,
   ((c7_equality_by_name x86_64T (by decide)).2 skylakeT (by decide)
     (by decide)).1,
   ((c7_equality_by_name x86_64T (by decide)).2 skylakeT (by decide)
     (by decide)).2⟩

/-- C8: an ordering comparison of a registry member against a value that
is not a microarchitecture (for example a string) fails with
`typeMismatch` rather than returning a result. -/
theorem c8_type_mismatch :
    ∀ m, m ∈ targets → ∀ s : String,
      ltOperand m (.pystr s) = .error .typeMismatch := by
  intro m _ s
  rfl

/-- Witness for C8 at x86_64 against the string foo. -/
theorem c8_witness :
    x86_64T ∈ targets ∧
    ltOperand x86_64T (.pystr ("foo")) = .error .typeMismatch :=
  ⟨by decide, c8_type_mismatch x86_64T (by decide) ("foo")⟩

/-- C9: the feature query answers true for raw feature strings directly
in a member's feature set and for every alias whose underlying raw names
intersect that set; concretely skylake has avx2 (raw) and sse3 (alias),
icelake has avx512f (raw) and avx512 (alias), power8 has altivec, and
broadwell has sse4.1. -/
theorem c9_feature_queries :
    (∀ m, m ∈ targets → ∀ f, f ∈ m.features → m.has_feature f = true) ∧
    (∀ m, m ∈ targets → ∀ a raws, feature_aliases.lookup a = some raws →
      raws.any (fun r => m.features.contains r) = true →
      m.has_feature a = true) ∧
    skylakeT.has_feature ("avx2") = true ∧
    skylakeT.has_feature ("sse3") = true ∧
    icelakeT.has_feature ("avx512f") = true ∧
    icelakeT.has_feature ("avx512") = true ∧
    power8T.has_feature ("altivec") = true ∧
    broadwellT.has_feature ("sse4.1") = true := by
  refine ⟨?_, ?_, by decide, by decide, by decide, by decide, by decide,
    by decide⟩
  · intro m _ f hf
    unfold MicroArchitecture.has_feature
    simp
    exact Or.inl hf
  · intro m _ a raws hl ha
    unfold MicroArchitecture.has_feature
    rw [hl]
    simp
    rcases List.any_eq_true.mp ha with ⟨x, hx1, hx2⟩
    exact Or.inr ⟨x, hx1, by simpa using hx2⟩

/-- Witness for C9 at skylake with the raw feature avx2. -/
theorem c9_witness :
    skylakeT ∈ targets ∧ ("avx2") ∈ skylakeT.features ∧
    skylakeT.has_feature ("avx2") = true :=
  ⟨by decide, by decide,
   c9_feature_queries.1 skylakeT (by decide) ("avx2") (by decide)⟩

/-- C6: within one architecture family, `a < b` holds exactly when `b` is
reachable from `a` along the ancestor relation in one or more steps,
`a <= b` means equal or less, and `>` / `>=` are the mirror relations;
consequently x86_64 < skylake, icelake > skylake, piledriver <= zen,
zen2 >= zen, and every member satisfies `m >= m`. -/
theorem c6_order_reachability :
    (∀ a, a ∈ targets → ∀ b, b ∈ targets →
      ((ltE a b = .ok true ↔
         (familyName a = familyName b ∧ ReachesUp b a)) ∧
       (leE a b = .ok true ↔
         (familyName a = familyName b ∧
           (eqB a b = true ∨ ReachesUp b a))) ∧
       (gtE a b = .ok true ↔
         (familyName a = familyName b ∧ ReachesUp a b)) ∧
       (geE a b = .ok true ↔
         (familyName a = familyName b ∧
           (eqB a b = true ∨ ReachesUp a b))))) ∧
    ltE x86_64T skylakeT = .ok true ∧
    gtE icelakeT skylakeT = .ok true ∧
    leE piledriverT zenT = .ok true ∧
    geE zen2T zenT = .ok true ∧
    (∀ m, m ∈ targets → geE m m = .ok true) := by
  refine ⟨?_, by decide, by decide, by decide, by decide, by decide⟩
  intro a ha b hb
  have hlt := ltB_iff ha hb
  have hgt := ltB_iff hb ha
  refine ⟨?_, ?_, ?_, ?_⟩
  · unfold ltE
    exact cmpGuard_ok_iff.trans (and_congr_right (fun _ => hlt))
  · unfold leE
    refine cmpGuard_ok_iff.trans (and_congr_right (fun _ => ?_))
    rw [Bool.or_eq_true]
    exact or_congr Iff.rfl hlt
  · unfold gtE
    exact cmpGuard_ok_iff.trans (and_congr_right (fun _ => hgt))
  · unfold geE
    refine cmpGuard_ok_iff.trans (and_congr_right (fun _ => ?_))
    rw [Bool.or_eq_true]
    exact or_congr Iff.rfl hgt

/-- Witness for C6 at the pair (x86_64, skylake): the proved equivalence
instantiated there shows skylake reaches x86_64 upward. -/
theorem c6_witness :
    familyName x86_64T = familyName skylakeT ∧ ReachesUp skylakeT x86_64T :=
  ((c6_order_reachability.1 x86_64T (by decide) skylakeT (by decide)).1).mp
    (by decide)

end Cpu
